import Mathlib

/-!
Shallow embedding of `src/app.py` (a Streamlit web-scraper tool).

The core pipeline lives in five Python functions, each embedded below under
its source name: `is_valid_url`, `get_all_links`, `parse_xpath`,
`extract_data`, `scrape_website`.

Modelling choices (all stated where they are used):
* The network and the third-party HTML/URL libraries (`requests`,
  `BeautifulSoup`, `urllib.parse`) are effects outside the repository; they
  are abstracted into an `Env` record of oracle functions.  A fetched,
  parsed document is a `Soup`: its `select` field is the result of
  `soup.select(cssSelector)`, its `find_all` field the result of
  `soup.find_all(tag, attrs)` (the attrs dict is either empty or a single
  attribute-value pair, which is all `parse_xpath` can produce, modelled by
  an `Option`), and `anchors` is the list of `href` values of
  `soup.find_all(a, href=True)` in document order.  `Element.getText` is
  `element.get_text(strip=True)`, the trimmed inner text.
* Python exceptions raised by `requests.get` are the `FetchOutcome.err`
  constructor carrying `str(e)`; a completed response is `FetchOutcome.ok`
  with its integer status code and parsed body.
* `list(set(links))` in `get_all_links` dedups with an order CPython leaves
  unspecified; the model fixes the deterministic first-occurrence order
  (`dedupAppend [] links`), which is the reading the spec itself adopts
  (first-seen order).
* `concurrent.futures.as_completed` yields results in a nondeterministic
  completion order; the model takes a scheduler `sched` that permutes the
  submitted worklist, and theorems hypothesise that `sched` is a
  permutation.  Structural faults of the executor itself (the outer
  `except` of `scrape_website`) are outside the model; the claims restrict
  themselves to the success path.
* The regex word-character class `\w` of a `str` pattern is Unicode-aware:
  underscore plus the Unicode alphanumerics, whose tables live in the `re`
  library, not in this repository.  It is therefore an oracle `Char → Bool`
  (the `wordChar` field of `Env`, passed to `parse_xpath` explicitly);
  theorems constrain it only by its values on the ASCII delimiter
  characters of the pattern (`[`, `=`), which Python's `\w` does not match.
  The concrete test environments instantiate it with the ASCII restriction
  `asciiWordChar`, on which Python's `\w` agrees.
-/

namespace IVFClinicSweep

/-- One HTML element as the selector engine sees it: `getText` is
`element.get_text(strip=True)`, the trimmed inner text. -/
structure Element where
  getText : String
  deriving DecidableEq

/-- A parsed document (`BeautifulSoup(response.text, html.parser)`),
abstracted to the three query results the source code performs on it. -/
structure Soup where
  select : String → List Element
  find_all : String → Option (String × String) → List Element
  anchors : List String

/-- Outcome of `requests.get(url, headers=headers, timeout=5)`: either a
raised exception (carrying `str(e)`) or a response with status code and
parsed body. -/
inductive FetchOutcome where
  | err (cause : String)
  | ok (status : Nat) (soup : Soup)

/-- The external world: the network, `urllib.parse`, and the `re`
module's Unicode word-character class (`\w` on a `str` pattern without
`re.ASCII`). -/
structure Env where
  fetch : String → FetchOutcome
  urlparse_scheme : String → String
  urlparse_netloc : String → String
  urljoin : String → String → String
  wordChar : Char → Bool

/-- `is_valid_url(url)` from src/app.py lines 51-57: `urlparse` the string
and require both `scheme` and `netloc` to be truthy (non-empty). -/
def is_valid_url (env : Env) (url : String) : Bool :=
  env.urlparse_scheme url != "" && env.urlparse_netloc url != ""

/-- Append each element of `links` that is not already present, preserving
first-seen order.  This is both the loop of src/app.py lines 157-159 and
(applied to `[]`) the deterministic rendering of `list(set(links))` at
line 81. -/
def dedupAppend (acc : List String) (links : List String) : List String :=
  links.foldl (fun a link => if link ∈ a then a else a ++ [link]) acc

/-- `get_all_links(url, base_domain)` from src/app.py lines 60-84: fetch
the page; on an exception or a non-200 status return `[]`; otherwise
resolve every anchor's href against `url` with `urljoin`, keep the ones
whose `netloc` equals `base_domain`, and dedup. -/
def get_all_links (env : Env) (url base_domain : String) : List String :=
  match env.fetch url with
  | .err _ => []
  | .ok status soup =>
    if status ≠ 200 then []
    else
      let links := soup.anchors.filterMap (fun href =>
        let full_url := env.urljoin url href
        if env.urlparse_netloc full_url = base_domain then some full_url else none)
      dedupAppend [] links

/-- The ASCII restriction of the regex word-character class: alphanumeric
or underscore.  Python's Unicode `\w` agrees with it on ASCII; the
concrete test environments instantiate the `wordChar` oracle with it. -/
def asciiWordChar (c : Char) : Bool :=
  c.isAlphanum || c == '_'

/-- The optional group of the regex at src/app.py line 89 — the literal
`[@`, then `\w+` (greedy), then `="`, then `[^"]+` (greedy, so up to the
next quote), then `"]` — matched against the characters following the tag.
`w` is the word-character class `\w` (an oracle, see `Env.wordChar`).
Returns the singleton attrs dict, or `none` when the group does not match
(regex backtracking then drops the optional group). -/
def parseBracketAttrs (w : Char → Bool) (cs : List Char) :
    Option (String × String) :=
  match cs with
  | c1 :: c2 :: rest =>
    if c1 = '[' ∧ c2 = '@' then
      let attr := rest.takeWhile w
      let rest2 := rest.dropWhile w
      if attr.isEmpty then none
      else
        match rest2 with
        | d1 :: d2 :: rest3 =>
          if d1 = '=' ∧ d2 = '"' then
            let val := rest3.takeWhile (fun c => !(c == '"'))
            let rest4 := rest3.dropWhile (fun c => !(c == '"'))
            if val.isEmpty then none
            else
              match rest4 with
              | e1 :: e2 :: _ =>
                if e1 = '"' ∧ e2 = ']' then
                  some (String.mk attr, String.mk val)
                else none
              | _ => none
          else none
        | _ => none
    else none
  | _ => none

/-- `parse_xpath(xpath)` from src/app.py lines 87-97, parametrised by the
word-character class `w` (Python's Unicode `\w`, an oracle — see
`Env.wordChar`).  The attrs dict is `none` for the empty dict and
`some (attr, value)` for the single-entry dict the regex can build.  The
prefix-match semantics of `re.match` is preserved: trailing characters
after the matched prefix are ignored, and a malformed bracket group
degrades to the bare-tag match. -/
def parse_xpath (w : Char → Bool) (xpath : String) :
    String × Option (String × String) :=
  match xpath.data with
  | c1 :: c2 :: rest =>
    if c1 = '/' ∧ c2 = '/' then
      let tag := rest.takeWhile w
      if tag.isEmpty then ("div", none)
      else (String.mk tag, parseBracketAttrs w (rest.dropWhile w))
    else ("div", none)
  | _ => ("div", none)

/-- Whether the regex at src/app.py line 89 matches a prefix of the
expression at all: the string must begin with `//` followed by at least
one word character (per the class `w`). -/
def xpathPrefixMatch (w : Char → Bool) (s : String) : Bool :=
  match s.data with
  | c1 :: c2 :: c3 :: _ => (c1 == '/') && (c2 == '/') && w c3
  | _ => false

/-- One entry of the `selectors` dict: `selector_info` with its `type` and
`value` keys (src/app.py lines 113-115, 250). -/
structure SelectorInfo where
  type : String
  value : String
  deriving DecidableEq

/-- The per-rule body of the loop at src/app.py lines 113-129: dispatch on
the selector kind, take the first matching element's trimmed text, default
to the not-found marker.  `w` is the word-character class used by
`parse_xpath` in the xpath branch. -/
def extractField (w : Char → Bool) (soup : Soup) (info : SelectorInfo) :
    String :=
  let elements :=
    if info.type = "css" then soup.select info.value
    else if info.type = "xpath" then
      let (tag, attrs) := parse_xpath w info.value
      soup.find_all tag attrs
    else []
  match elements with
  | [] => "N/A"
  | e :: _ => e.getText

/-- `extract_data(url, selectors)` from src/app.py lines 100-135.  The
selectors dict is an ordered association list (Python dicts preserve
insertion order, keys unique).  Returns the results dict, in rule order,
and the optional error string. -/
def extract_data (env : Env) (url : String)
    (selectors : List (String × SelectorInfo)) :
    List (String × String) × Option String :=
  match env.fetch url with
  | .err cause => (selectors.map (fun p => (p.1, "N/A")), some ("Error: " ++ cause))
  | .ok status soup =>
    if status ≠ 200 then
      (selectors.map (fun p => (p.1, "N/A")), some ("Error: HTTP " ++ toString status))
    else
      (selectors.map (fun p => (p.1, extractField env.wordChar soup p.2)),
       none)

/-- One row of `all_data`: the extraction results with the source `url`
attached (`data[url] = url`, src/app.py line 185). -/
structure PageRecord where
  fields : List (String × String)
  url : String
  error : Option String
  deriving DecidableEq

/-- The worklist construction of src/app.py lines 143-162: start with
`[start_url]`, if crawling append the newly discovered links not already
present, then truncate to `max_pages`. -/
def buildWorklist (env : Env) (start_url : String) (max_pages : Nat)
    (crawl_same_domain : Bool) : List String :=
  let urls_to_visit := [start_url]
  let urls_to_visit :=
    if crawl_same_domain then
      dedupAppend urls_to_visit
        (get_all_links env start_url (env.urlparse_netloc start_url))
    else urls_to_visit
  urls_to_visit.take max_pages

/-- The record appended for one completed future (src/app.py lines
180-186). -/
def mkRecord (env : Env) (selectors : List (String × SelectorInfo))
    (url : String) : PageRecord :=
  let r := extract_data env url selectors
  { fields := r.1, url := url, error := r.2 }

/-- The `error_log` accumulated over the completed futures (src/app.py
lines 182-183), in completion order. -/
def errorLog (env : Env) (selectors : List (String × SelectorInfo))
    (completion : List String) : List String :=
  completion.filterMap (fun url =>
    (extract_data env url selectors).2.map
      (fun e => "Error on " ++ url ++ ": " ++ e))

/-- `scrape_website(start_url, selectors, max_pages, crawl_same_domain)`
from src/app.py lines 138-206, on its success path.  `sched` models the
completion order of `concurrent.futures.as_completed`: it rearranges the
submitted worklist (theorems hypothesise it is a permutation).  Returns
the record list (in completion order) and the summary message. -/
def scrape_website (env : Env) (sched : List String → List String)
    (start_url : String) (selectors : List (String × SelectorInfo))
    (max_pages : Nat) (crawl_same_domain : Bool) :
    List PageRecord × String :=
  if is_valid_url env start_url then
    let urls_to_visit := buildWorklist env start_url max_pages crawl_same_domain
    let completion := sched urls_to_visit
    let all_data := completion.map (mkRecord env selectors)
    let error_log := errorLog env selectors completion
    let base := "Successfully scraped " ++ toString all_data.length ++ " pages"
    let result_msg :=
      if error_log.isEmpty then base
      else base ++ "\nWarnings: " ++ toString error_log.length ++ " pages had errors"
    (all_data, result_msg)
  else ([], "Invalid URL provided")

/-! ### Concrete instances used to exercise the theorems -/

/-- A small fixed document: one `h1` with text `Hello`, one `div` with
`class=content`, five same-host anchors. -/
def sampleSoup : Soup where
  select := fun s => if s = "h1" then [{ getText := "Hello" }] else []
  find_all := fun tag attrs =>
    if tag = "div" ∧ attrs = some ("class", "content") then
      [{ getText := "Content" }]
    else if tag = "div" ∧ attrs = none then [{ getText := "FirstDiv" }]
    else []
  anchors :=
    ["http://example.com/p1", "http://example.com/p2", "http://example.com/p3",
     "http://example.com/p4", "http://example.com/p5"]

/-- A world where every fetch succeeds with status 200 and `sampleSoup`;
hrefs are already absolute and all on host `example.com`. -/
def envOk : Env where
  fetch := fun _ => .ok 200 sampleSoup
  urlparse_scheme := fun _ => "http"
  urlparse_netloc := fun _ => "example.com"
  urljoin := fun _ href => href
  wordChar := asciiWordChar

/-- A world where every fetch raises (`requests` timeout). -/
def envErr : Env where
  fetch := fun _ => .err "timeout"
  urlparse_scheme := fun _ => "http"
  urlparse_netloc := fun _ => "example.com"
  urljoin := fun _ href => href
  wordChar := asciiWordChar

/-- A world whose URL parser finds neither scheme nor host (the start URL
is malformed). -/
def envBad : Env where
  fetch := fun _ => .err "timeout"
  urlparse_scheme := fun _ => ""
  urlparse_netloc := fun _ => ""
  urljoin := fun _ href => href
  wordChar := asciiWordChar

/-- A document whose first anchor resolves back to the start page itself
(e.g. `href=""`), exercising the `not already present` dedup of the
worklist loop. -/
def selfLinkSoup : Soup where
  select := fun s => if s = "h1" then [{ getText := "Hello" }] else []
  find_all := fun _ _ => []
  anchors :=
    ["http://example.com", "http://example.com/p1", "http://example.com/p2"]

/-- A world like `envOk` whose start page links to itself first. -/
def envSelf : Env where
  fetch := fun _ => .ok 200 selfLinkSoup
  urlparse_scheme := fun _ => "http"
  urlparse_netloc := fun _ => "example.com"
  urljoin := fun _ href => href
  wordChar := asciiWordChar

/-- A one-rule set: extract `title` with the CSS selector `h1`. -/
def sampleSelectors : List (String × SelectorInfo) :=
  [("title", { type := "css", value := "h1" })]

/-! ### Helper lemmas -/

theorem dedupAppend_nodup (links : List String) :
    ∀ acc : List String, acc.Nodup → (dedupAppend acc links).Nodup := by
  induction links with
  | nil => intro acc h; exact h
  | cons l ls ih =>
    intro acc h
    unfold dedupAppend
    simp only [List.foldl_cons]
    by_cases hmem : l ∈ acc
    · simp only [if_pos hmem]
      exact ih acc h
    · simp only [if_neg hmem]
      apply ih
      refine List.Nodup.append h (List.nodup_singleton l) ?_
      intro a ha hal
      rw [List.mem_singleton] at hal
      exact hmem (hal ▸ ha)

theorem dedupAppend_mem (links : List String) :
    ∀ acc x, x ∈ dedupAppend acc links → x ∈ acc ∨ x ∈ links := by
  induction links with
  | nil => intro acc x h; exact Or.inl h
  | cons l ls ih =>
    intro acc x h
    unfold dedupAppend at h
    simp only [List.foldl_cons] at h
    by_cases hmem : l ∈ acc
    · simp only [if_pos hmem] at h
      rcases ih acc x h with h' | h'
      · exact Or.inl h'
      · exact Or.inr (List.mem_cons_of_mem _ h')
    · simp only [if_neg hmem] at h
      rcases ih (acc ++ [l]) x h with h' | h'
      · rcases List.mem_append.mp h' with h'' | h''
        · exact Or.inl h''
        · simp only [List.mem_singleton] at h''
          exact Or.inr (h'' ▸ List.mem_cons_self _ _)
      · exact Or.inr (List.mem_cons_of_mem _ h')

theorem dedupAppend_filter (links : List String) :
    ∀ acc : List String, links.Nodup →
      dedupAppend acc links =
        acc ++ links.filter (fun x => !(decide (x ∈ acc))) := by
  induction links with
  | nil =>
    intro acc _
    simp [dedupAppend]
  | cons l ls ih =>
    intro acc hnd
    have hlnotin : l ∉ ls := (List.nodup_cons.mp hnd).1
    have hlsnd : ls.Nodup := (List.nodup_cons.mp hnd).2
    unfold dedupAppend
    simp only [List.foldl_cons]
    by_cases hmem : l ∈ acc
    · rw [if_pos hmem]
      have hrec := ih acc hlsnd
      unfold dedupAppend at hrec
      rw [hrec, List.filter_cons]
      simp [hmem]
    · rw [if_neg hmem]
      have hrec := ih (acc ++ [l]) hlsnd
      unfold dedupAppend at hrec
      rw [hrec, List.filter_cons]
      have hfeq : ls.filter (fun x => !(decide (x ∈ acc ++ [l]))) =
          ls.filter (fun x => !(decide (x ∈ acc))) := by
        apply List.filter_congr
        intro x hx
        have hxl : x ≠ l := fun h => hlnotin (h ▸ hx)
        simp [List.mem_append, hxl]
      rw [hfeq]
      simp [hmem, List.append_assoc]

theorem takeWhile_append_stop (p : Char → Bool) (l₁ : List Char) (c : Char)
    (l₂ : List Char) (h₁ : ∀ x ∈ l₁, p x = true) (hc : p c = false) :
    (l₁ ++ c :: l₂).takeWhile p = l₁ ∧ (l₁ ++ c :: l₂).dropWhile p = c :: l₂ := by
  induction l₁ with
  | nil => simp [List.takeWhile, List.dropWhile, hc]
  | cons a as ih =>
    have ha : p a = true := h₁ a (List.mem_cons_self _ _)
    have ih' := ih (fun x hx => h₁ x (List.mem_cons_of_mem _ hx))
    simp [List.takeWhile, List.dropWhile, ha, ih'.1, ih'.2]

theorem takeWhile_of_all (p : Char → Bool) (l : List Char)
    (h : ∀ x ∈ l, p x = true) :
    l.takeWhile p = l ∧ l.dropWhile p = [] := by
  induction l with
  | nil => simp
  | cons a as ih =>
    have ha : p a = true := h a (List.mem_cons_self _ _)
    have ih' := ih (fun x hx => h x (List.mem_cons_of_mem _ hx))
    simp [List.takeWhile, List.dropWhile, ha, ih'.1, ih'.2]

theorem errorLog_length (env : Env) (selectors : List (String × SelectorInfo)) :
    ∀ completion : List String,
      (errorLog env selectors completion).length =
        (completion.filter
          (fun u => ((extract_data env u selectors).2).isSome)).length := by
  intro completion
  induction completion with
  | nil => simp [errorLog]
  | cons u us ih =>
    unfold errorLog at ih ⊢
    cases h : (extract_data env u selectors).2 with
    | none => simp [List.filterMap_cons, List.filter_cons, h, ih]
    | some e => simp [List.filterMap_cons, List.filter_cons, h, ih]

theorem append_ne_empty_left (a b : String) (h : a.data ≠ []) :
    a ++ b ≠ "" := by
  intro heq
  have h2 := congrArg String.data heq
  rw [String.data_append] at h2
  have h3 : a.data ++ b.data = [] := by simpa using h2
  exact h (List.append_eq_nil.mp h3).1

/-! ### Claim theorems -/

/-- Claim C1: for every rule set and every URL, if the fetch raises or the
status is not 200, `extract_data` returns a record whose every rule-named
field is the not-found marker `N/A` together with a non-empty error string
of the form `Error: HTTP <code>` (non-200 status) or `Error: <cause>`
(fetch exception).  No exception escapes: the embedded `extract_data` is a
total function. -/
theorem extract_data_fetch_failure (env : Env) (url : String)
    (selectors : List (String × SelectorInfo))
    (h : (∃ c, env.fetch url = .err c) ∨
         ∃ code soup, env.fetch url = .ok code soup ∧ code ≠ 200) :
    (∀ p ∈ (extract_data env url selectors).1, p.2 = "N/A") ∧
    (extract_data env url selectors).1.map Prod.fst = selectors.map Prod.fst ∧
    ∃ e, (extract_data env url selectors).2 = some e ∧ e ≠ "" ∧
      ((∃ c, env.fetch url = .err c ∧ e = "Error: " ++ c) ∨
       ∃ code soup, env.fetch url = .ok code soup ∧ code ≠ 200 ∧
         e = "Error: HTTP " ++ toString code) := by
  rcases h with ⟨c, hc⟩ | ⟨code, soup, hc, hcode⟩
  · refine ⟨?_, ?_, "Error: " ++ c, ?_, ?_, Or.inl ⟨c, hc, rfl⟩⟩
    · intro p hp
      simp only [extract_data, hc] at hp
      rw [List.mem_map] at hp
      obtain ⟨q, _, rfl⟩ := hp
      rfl
    · simp only [extract_data, hc, List.map_map]
      rfl
    · simp [extract_data, hc]
    · exact append_ne_empty_left _ _ (by decide)
  · refine ⟨?_, ?_, "Error: HTTP " ++ toString code, ?_, ?_,
      Or.inr ⟨code, soup, hc, hcode, rfl⟩⟩
    · intro p hp
      simp only [extract_data, hc, if_pos hcode] at hp
      rw [List.mem_map] at hp
      obtain ⟨q, _, rfl⟩ := hp
      rfl
    · simp only [extract_data, hc, if_pos hcode, List.map_map]
      rfl
    · simp [extract_data, hc, if_pos hcode]
    · exact append_ne_empty_left _ _ (by decide)

theorem extract_data_fetch_failure_witness :
    (∃ c, envErr.fetch ("http://example.com") = .err c) ∧
    (∀ p ∈ (extract_data envErr ("http://example.com") sampleSelectors).1,
        p.2 = "N/A") ∧
    (extract_data envErr ("http://example.com") sampleSelectors).2 =
      some ("Error: timeout") := by
  have h := extract_data_fetch_failure envErr ("http://example.com")
    sampleSelectors (Or.inl ⟨"timeout", rfl⟩)
  exact ⟨⟨"timeout", rfl⟩, h.1, by rfl⟩

/-- Claim C2: a start URL lacking a scheme or a host makes
`scrape_website` short-circuit with an empty record collection and the
summary string exactly `Invalid URL provided`. -/
theorem scrape_invalid_url (env : Env) (sched : List String → List String)
    (start_url : String) (selectors : List (String × SelectorInfo))
    (max_pages : Nat) (crawl_same_domain : Bool)
    (h : env.urlparse_scheme start_url = "" ∨
         env.urlparse_netloc start_url = "") :
    scrape_website env sched start_url selectors max_pages crawl_same_domain =
      ([], "Invalid URL provided") := by
  have hv : is_valid_url env start_url = false := by
    rcases h with h | h <;> simp [is_valid_url, h]
  simp [scrape_website, hv]

theorem scrape_invalid_url_witness :
    envBad.urlparse_scheme ("not a url") = "" ∧
    scrape_website envBad id ("not a url") sampleSelectors 10 false =
      ([], "Invalid URL provided") :=
  ⟨rfl, scrape_invalid_url envBad id ("not a url") sampleSelectors 10 false
    (Or.inl rfl)⟩

theorem buildWorklist_nodup (env : Env) (start_url : String)
    (max_pages : Nat) (crawl_same_domain : Bool) :
    (buildWorklist env start_url max_pages crawl_same_domain).Nodup := by
  have hbase :
      (if crawl_same_domain then
          dedupAppend [start_url]
            (get_all_links env start_url (env.urlparse_netloc start_url))
        else [start_url]).Nodup := by
    cases crawl_same_domain with
    | false => simp
    | true =>
      simp only [if_pos]
      exact dedupAppend_nodup _ [start_url] (List.nodup_singleton _)
  exact List.Nodup.sublist (List.take_sublist _ _) hbase

/-- Claim C3: for every environment (hence every set of discovered links),
start URL, page cap and crawl flag, the worklist built by
`scrape_website` has no duplicate URL strings and its length never
exceeds the page cap. -/
theorem worklist_nodup_and_capped (env : Env) (start_url : String)
    (max_pages : Nat) (crawl_same_domain : Bool) :
    (buildWorklist env start_url max_pages crawl_same_domain).Nodup ∧
    (buildWorklist env start_url max_pages crawl_same_domain).length ≤
      max_pages :=
  ⟨buildWorklist_nodup env start_url max_pages crawl_same_domain,
   List.length_take_le max_pages _⟩

/-- Claim C10: a rule whose kind string is neither `css` nor `xpath` gets
the not-found marker on a successfully fetched page (the element list is
taken empty) and no error is recorded on the record. -/
theorem unknown_selector_type (env : Env) (url : String) (soup : Soup)
    (selectors : List (String × SelectorInfo)) (info : SelectorInfo)
    (hfetch : env.fetch url = .ok 200 soup)
    (h1 : info.type ≠ "css") (h2 : info.type ≠ "xpath") :
    extractField env.wordChar soup info = "N/A" ∧
    (extract_data env url selectors).2 = none ∧
    ∀ name, (name, info) ∈ selectors →
      (name, "N/A") ∈ (extract_data env url selectors).1 := by
  have hfield : extractField env.wordChar soup info = "N/A" := by
    simp [extractField, h1, h2]
  refine ⟨hfield, by simp [extract_data, hfetch], ?_⟩
  intro name hmem
  simp only [extract_data, hfetch]
  simp only [if_neg (by simp : ¬ (200 : Nat) ≠ 200)]
  rw [List.mem_map]
  exact ⟨(name, info), hmem, by simp [hfield]⟩

theorem unknown_selector_type_witness :
    envOk.fetch ("http://example.com") = .ok 200 sampleSoup ∧
    extractField envOk.wordChar sampleSoup
      { type := "regex", value := "h1" } = "N/A" := by
  have h := unknown_selector_type envOk ("http://example.com") sampleSoup
    [("title", { type := "regex", value := "h1" })]
    { type := "regex", value := "h1" } rfl (by decide) (by decide)
  exact ⟨rfl, h.1⟩

/-- Claim C4: on a successfully fetched page the selector-engine step of
`extract_data` maps every rule through `extractField`; for a CSS-kind rule
this is the trimmed inner text of the first element matching the selector
when at least one matches, and the marker `N/A` when none does. -/
theorem css_rule_extraction (env : Env) (url : String) (soup : Soup)
    (selectors : List (String × SelectorInfo)) (info : SelectorInfo)
    (hfetch : env.fetch url = .ok 200 soup) (hcss : info.type = "css") :
    (extract_data env url selectors).1 =
      selectors.map (fun p => (p.1, extractField env.wordChar soup p.2)) ∧
    (soup.select info.value = [] →
      extractField env.wordChar soup info = "N/A") ∧
    ∀ e rest, soup.select info.value = e :: rest →
      extractField env.wordChar soup info = e.getText := by
  refine ⟨by simp [extract_data, hfetch], ?_, ?_⟩
  · intro h
    simp [extractField, hcss, h]
  · intro e rest h
    simp [extractField, hcss, h]

theorem css_rule_extraction_witness :
    envOk.fetch ("http://example.com") = .ok 200 sampleSoup ∧
    (extract_data envOk ("http://example.com") sampleSelectors).1 =
      [("title", "Hello")] ∧
    (extract_data envOk ("http://example.com") sampleSelectors).2 = none := by
  have h := css_rule_extraction envOk ("http://example.com") sampleSoup
    sampleSelectors { type := "css", value := "h1" } rfl rfl
  refine ⟨rfl, ?_, rfl⟩
  rw [h.1]
  have h2 := h.2.2 { getText := "Hello" } [] (by decide)
  simp [sampleSelectors, h2]

/-- Claim C6: every URL returned by `get_all_links` arises by URL-joining
an anchor href against the page URL and has host equal to the page host;
the returned collection has no duplicates; a fetch exception or a non-200
status yields the empty collection rather than an error. -/
theorem get_all_links_spec (env : Env) (url base_domain : String)
    (hbase : base_domain = env.urlparse_netloc url) :
    (get_all_links env url base_domain).Nodup ∧
    (∀ l ∈ get_all_links env url base_domain,
        env.urlparse_netloc l = env.urlparse_netloc url ∧
        ∃ status soup, env.fetch url = .ok status soup ∧
          ∃ href ∈ soup.anchors, l = env.urljoin url href) ∧
    (∀ c, env.fetch url = .err c → get_all_links env url base_domain = []) ∧
    (∀ status soup, env.fetch url = .ok status soup → status ≠ 200 →
        get_all_links env url base_domain = []) := by
  cases hf : env.fetch url with
  | err c => simp [get_all_links, hf]
  | ok status soup =>
    by_cases hs : status = 200
    · subst hs
      have hlinks : get_all_links env url base_domain =
          dedupAppend []
            (soup.anchors.filterMap (fun href =>
              if env.urlparse_netloc (env.urljoin url href) = base_domain then
                some (env.urljoin url href)
              else none)) := by
        simp [get_all_links, hf]
      refine ⟨?_, ?_, ?_, ?_⟩
      · rw [hlinks]
        exact dedupAppend_nodup _ [] List.nodup_nil
      · intro l hl
        rw [hlinks] at hl
        rcases dedupAppend_mem _ [] l hl with h | h
        · simp at h
        · rw [List.mem_filterMap] at h
          obtain ⟨href, hhref, heq⟩ := h
          by_cases hcond :
              env.urlparse_netloc (env.urljoin url href) = base_domain
          · rw [if_pos hcond] at heq
            have hleq : l = env.urljoin url href := by
              exact (Option.some.injEq _ _ ▸ heq).symm
            refine ⟨?_, 200, soup, rfl, href, hhref, hleq⟩
            rw [hleq, hcond, hbase]
          · rw [if_neg hcond] at heq
            exact absurd heq (by simp)
      · intro c hc
        exact absurd hc (by simp)
      · intro status soup hok hne
        have : status = 200 := by
          injection hok with h1 h2
          exact h1.symm
        exact absurd this hne
    · refine ⟨?_, ?_, ?_, ?_⟩
      · simp [get_all_links, hf, hs]
      · intro l hl
        simp [get_all_links, hf, hs] at hl
      · intro c hc
        exact absurd hc (by simp)
      · intro status soup hok hne
        simp [get_all_links, hf, hs]

theorem get_all_links_spec_witness :
    ("example.com" : String) =
      envOk.urlparse_netloc ("http://example.com") ∧
    (get_all_links envOk ("http://example.com") ("example.com")).Nodup ∧
    get_all_links envOk ("http://example.com") ("example.com") =
      ["http://example.com/p1", "http://example.com/p2",
       "http://example.com/p3", "http://example.com/p4",
       "http://example.com/p5"] := by
  have h := get_all_links_spec envOk ("http://example.com") ("example.com")
    rfl
  exact ⟨rfl, h.1, by decide⟩

theorem parse_xpath_eq_of_data (w : Char → Bool) (xpath : String)
    (c1 c2 : Char) (rest : List Char) (h : xpath.data = c1 :: c2 :: rest) :
    parse_xpath w xpath =
      if c1 = '/' ∧ c2 = '/' then
        if (rest.takeWhile w).isEmpty then ("div", none)
        else (String.mk (rest.takeWhile w),
              parseBracketAttrs w (rest.dropWhile w))
      else ("div", none) := by
  unfold parse_xpath
  rw [h]

theorem parseBracketAttrs_full (w : Char → Bool) (attr val : String)
    (tailcs : List Char) (hw : w '=' = false)
    (hattr : attr.data ≠ [] ∧ ∀ c ∈ attr.data, w c = true)
    (hval : val.data ≠ [] ∧ ∀ c ∈ val.data, (c == '"') = false) :
    parseBracketAttrs w
        ('[' :: '@' ::
          (attr.data ++ ('=' :: '"' :: (val.data ++ ('"' :: ']' :: tailcs))))) =
      some (attr, val) := by
  obtain ⟨hane, haw⟩ := hattr
  obtain ⟨hvne, hvw⟩ := hval
  have ha := takeWhile_append_stop w attr.data '='
    ('"' :: (val.data ++ ('"' :: ']' :: tailcs))) haw hw
  have hvp : ∀ c ∈ val.data, (fun c => !(c == '"')) c = true := by
    intro c hc
    simp [hvw c hc]
  have hv := takeWhile_append_stop (fun c => !(c == '"')) val.data '"'
    (']' :: tailcs) hvp (by decide)
  have hae : attr.data.isEmpty = false := by
    cases h : attr.data with
    | nil => exact absurd h hane
    | cons a l => rfl
  have hve : val.data.isEmpty = false := by
    cases h : val.data with
    | nil => exact absurd h hvne
    | cons a l => rfl
  simp only [parseBracketAttrs]
  rw [if_pos (by trivial), ha.1, ha.2, hae]
  simp only [Bool.false_eq_true, if_false]
  rw [if_pos (by trivial), hv.1, hv.2, hve]
  simp only [Bool.false_eq_true, if_false]
  rw [if_pos (by trivial)]

/-- Claim C5: for every word-character class `w` (including Python's
Unicode `\w`, constrained here only on the ASCII delimiters `[` and `=`,
which `\w` does not match), `parse_xpath` returns `(tag, single
attr-value dict)` on an expression of the form `//tag[@attr="value"]`,
`(tag, empty dict)` on a bare `//tag`, and falls back to `(div, empty
dict)` on every expression the regex does not match at all; it never
raises (the embedding is a total function). -/
theorem parse_xpath_spec (w : Char → Bool) (tag attr val s : String)
    (hwbr : w '[' = false) (hweq : w '=' = false)
    (htag : tag.data ≠ [] ∧ ∀ c ∈ tag.data, w c = true)
    (hattr : attr.data ≠ [] ∧ ∀ c ∈ attr.data, w c = true)
    (hval : val.data ≠ [] ∧ ∀ c ∈ val.data, (c == '"') = false)
    (hs : xpathPrefixMatch w s = false) :
    parse_xpath w ("//" ++ tag ++ "[@" ++ attr ++ "=\"" ++ val ++ "\"]") =
      (tag, some (attr, val)) ∧
    parse_xpath w ("//" ++ tag) = (tag, none) ∧
    parse_xpath w s = ("div", none) := by
  obtain ⟨htne, htw⟩ := htag
  have htae : tag.data.isEmpty = false := by
    cases h : tag.data with
    | nil => exact absurd h htne
    | cons a l => rfl
  refine ⟨?_, ?_, ?_⟩
  · have hdata :
        ("//" ++ tag ++ "[@" ++ attr ++ "=\"" ++ val ++ "\"]").data =
          '/' :: '/' ::
            (tag.data ++
              ('[' :: '@' ::
                (attr.data ++
                  ('=' :: '"' :: (val.data ++ ('"' :: ']' :: [])))))) := by
      simp only [String.data_append]
      simp [List.append_assoc]
    have ht := takeWhile_append_stop w tag.data '['
      ('@' :: (attr.data ++ ('=' :: '"' :: (val.data ++ ('"' :: ']' :: [])))))
      htw hwbr
    rw [parse_xpath_eq_of_data w _ '/' '/' _ hdata, if_pos ⟨rfl, rfl⟩,
      ht.1, ht.2, htae]
    simp only [Bool.false_eq_true, if_false]
    rw [parseBracketAttrs_full w attr val [] hweq ⟨hattr.1, hattr.2⟩ hval]
  · have hdata : ("//" ++ tag).data = '/' :: '/' :: tag.data := by
      simp only [String.data_append]
      rfl
    have ht := takeWhile_of_all w tag.data htw
    rw [parse_xpath_eq_of_data w _ '/' '/' _ hdata, if_pos ⟨rfl, rfl⟩,
      ht.1, ht.2, htae]
    simp only [Bool.false_eq_true, if_false]
    rfl
  · cases hd : s.data with
    | nil =>
      unfold parse_xpath
      rw [hd]
    | cons c1 t1 =>
      cases t1 with
      | nil =>
        unfold parse_xpath
        rw [hd]
      | cons c2 t2 =>
        have hrw := parse_xpath_eq_of_data w s c1 c2 t2 hd
        unfold xpathPrefixMatch at hs
        rw [hd] at hs
        by_cases h12 : c1 = '/' ∧ c2 = '/'
        · rw [hrw, if_pos h12]
          cases t2 with
          | nil => simp
          | cons c3 t3 =>
            obtain ⟨h1, h2⟩ := h12
            subst h1
            subst h2
            have hc3 : w c3 = false := by
              simpa using hs
            simp [List.takeWhile_cons, hc3]
        · rw [hrw, if_neg h12]

theorem parse_xpath_spec_witness :
    asciiWordChar '[' = false ∧ asciiWordChar '=' = false ∧
    parse_xpath asciiWordChar ("//div[@class=\"content\"]") =
      (("div" : String), some (("class" : String), ("content" : String))) ∧
    parse_xpath asciiWordChar ("//h1") = (("h1" : String), none) ∧
    parse_xpath asciiWordChar ("@@garbage") = (("div" : String), none) := by
  have h := parse_xpath_spec asciiWordChar ("div") ("class") ("content")
    ("@@garbage") (by decide) (by decide)
    (by refine ⟨by decide, ?_⟩; decide)
    (by refine ⟨by decide, ?_⟩; decide)
    (by refine ⟨by decide, ?_⟩; decide)
    (by decide)
  have h2 := parse_xpath_spec asciiWordChar ("h1") ("class") ("content")
    ("@@garbage") (by decide) (by decide)
    (by refine ⟨by decide, ?_⟩; decide)
    (by refine ⟨by decide, ?_⟩; decide)
    (by refine ⟨by decide, ?_⟩; decide)
    (by decide)
  exact ⟨by decide, by decide, h.1, h2.2.1, h.2.2⟩

theorem buildWorklist_true (env : Env) (start_url : String) (n : Nat) :
    buildWorklist env start_url n true =
      (dedupAppend [start_url]
        (get_all_links env start_url (env.urlparse_netloc start_url))).take
        n := rfl

theorem get_all_links_nodup (env : Env) (url base_domain : String) :
    (get_all_links env url base_domain).Nodup := by
  cases hf : env.fetch url with
  | err c => simp [get_all_links, hf]
  | ok status soup =>
    by_cases hs : status = 200
    · subst hs
      have hlinks : get_all_links env url base_domain =
          dedupAppend []
            (soup.anchors.filterMap (fun href =>
              if env.urlparse_netloc (env.urljoin url href) = base_domain then
                some (env.urljoin url href)
              else none)) := by
        simp [get_all_links, hf]
      rw [hlinks]
      exact dedupAppend_nodup _ [] List.nodup_nil
    · simp [get_all_links, hf, hs]

/-- Claim C7: with crawling enabled the worklist begins with the start URL
and each newly discovered same-host link not already present (in
particular, not equal to the start URL, the only possible repeat) is
appended preserving first-seen order; with page cap 2 it is the start URL
followed by exactly the first-seen discovered link not already present. -/
theorem worklist_crawl_order (env : Env) (start_url : String) (cap : Nat)
    (links : List String)
    (hlinks :
      get_all_links env start_url (env.urlparse_netloc start_url) = links) :
    buildWorklist env start_url cap true =
      (start_url :: links.filter (fun l => !(l == start_url))).take cap ∧
    ∀ l rest, links.filter (fun l => !(l == start_url)) = l :: rest →
      buildWorklist env start_url 2 true = [start_url, l] := by
  have hnd : links.Nodup := hlinks ▸ get_all_links_nodup env start_url _
  have hmain : ∀ n : Nat,
      buildWorklist env start_url n true =
        (start_url :: links.filter (fun l => !(l == start_url))).take n := by
    intro n
    rw [buildWorklist_true, hlinks, dedupAppend_filter links [start_url] hnd]
    have hfeq : links.filter (fun x => !(decide (x ∈ [start_url]))) =
        links.filter (fun l => !(l == start_url)) := by
      apply List.filter_congr
      intro x _
      by_cases h : x = start_url <;> simp [h]
    rw [hfeq]
    rfl
  refine ⟨hmain cap, ?_⟩
  intro l rest hl
  rw [hmain 2, hl]
  rfl

theorem worklist_crawl_order_witness :
    get_all_links envSelf ("http://example.com")
        (envSelf.urlparse_netloc ("http://example.com")) =
      ["http://example.com", "http://example.com/p1",
       "http://example.com/p2"] ∧
    buildWorklist envSelf ("http://example.com") 2 true =
      ["http://example.com", "http://example.com/p1"] ∧
    buildWorklist envOk ("http://example.com") 2 true =
      ["http://example.com", "http://example.com/p1"] := by
  have hself := worklist_crawl_order envSelf ("http://example.com") 2
    ["http://example.com", "http://example.com/p1", "http://example.com/p2"]
    (by decide)
  have hok := worklist_crawl_order envOk ("http://example.com") 2
    ["http://example.com/p1", "http://example.com/p2",
     "http://example.com/p3", "http://example.com/p4",
     "http://example.com/p5"] (by decide)
  refine ⟨by decide, ?_, ?_⟩
  · exact hself.2 ("http://example.com/p1") ["http://example.com/p2"]
      (by decide)
  · exact hok.2 ("http://example.com/p1")
      ["http://example.com/p2", "http://example.com/p3",
       "http://example.com/p4", "http://example.com/p5"] (by decide)

/-- Claim C8: on the success path, dispatching the N worklist entries
produces exactly N records — one per worklist URL regardless of per-page
outcome, none duplicated or lost — for every completion order (any
permutation of the worklist). -/
theorem scrape_records_complete (env : Env)
    (sched : List String → List String) (start_url : String)
    (selectors : List (String × SelectorInfo)) (max_pages : Nat)
    (crawl : Bool) (hv : is_valid_url env start_url = true)
    (hp : (sched (buildWorklist env start_url max_pages crawl)).Perm
            (buildWorklist env start_url max_pages crawl)) :
    (scrape_website env sched start_url selectors max_pages crawl).1.length =
      (buildWorklist env start_url max_pages crawl).length ∧
    ((scrape_website env sched start_url selectors max_pages crawl).1.map
        PageRecord.url).Perm (buildWorklist env start_url max_pages crawl) ∧
    ∀ u ∈ buildWorklist env start_url max_pages crawl,
      ((scrape_website env sched start_url selectors max_pages crawl).1.map
          PageRecord.url).count u = 1 := by
  have hrec :
      (scrape_website env sched start_url selectors max_pages crawl).1 =
        (sched (buildWorklist env start_url max_pages crawl)).map
          (mkRecord env selectors) := by
    simp [scrape_website, hv]
  have hmapurl :
      ((sched (buildWorklist env start_url max_pages crawl)).map
          (mkRecord env selectors)).map PageRecord.url =
        sched (buildWorklist env start_url max_pages crawl) := by
    rw [List.map_map]
    have hcomp : (PageRecord.url ∘ mkRecord env selectors) =
        fun u : String => u := rfl
    rw [hcomp, List.map_id']
  refine ⟨?_, ?_, ?_⟩
  · rw [hrec, List.length_map]
    exact hp.length_eq
  · rw [hrec, hmapurl]
    exact hp
  · intro u hu
    rw [hrec, hmapurl, hp.count_eq u]
    exact List.count_eq_one_of_mem
      (buildWorklist_nodup env start_url max_pages crawl) hu

theorem scrape_records_complete_witness :
    is_valid_url envOk ("http://example.com") = true ∧
    (scrape_website envOk id ("http://example.com") sampleSelectors 2
        true).1.length =
      (buildWorklist envOk ("http://example.com") 2 true).length ∧
    (buildWorklist envOk ("http://example.com") 2 true).length = 2 := by
  have h := scrape_records_complete envOk id ("http://example.com")
    sampleSelectors 2 true rfl (List.Perm.refl _)
  exact ⟨rfl, h.1, by decide⟩

/-- Claim C9: when all dispatched extractions complete, the summary is
`Successfully scraped <N> pages` with N the total number of records
produced (failed pages included), and a warning-count line is appended
exactly when at least one page produced an error. -/
theorem scrape_summary (env : Env) (sched : List String → List String)
    (start_url : String) (selectors : List (String × SelectorInfo))
    (max_pages : Nat) (crawl : Bool)
    (hv : is_valid_url env start_url = true)
    (hp : (sched (buildWorklist env start_url max_pages crawl)).Perm
            (buildWorklist env start_url max_pages crawl)) :
    (((buildWorklist env start_url max_pages crawl).filter
        (fun u => ((extract_data env u selectors).2).isSome)).length = 0 →
      (scrape_website env sched start_url selectors max_pages crawl).2 =
        "Successfully scraped " ++
          toString (scrape_website env sched start_url selectors max_pages
            crawl).1.length ++ " pages") ∧
    (((buildWorklist env start_url max_pages crawl).filter
        (fun u => ((extract_data env u selectors).2).isSome)).length ≠ 0 →
      (scrape_website env sched start_url selectors max_pages crawl).2 =
        "Successfully scraped " ++
          toString (scrape_website env sched start_url selectors max_pages
            crawl).1.length ++ " pages" ++ "\nWarnings: " ++
          toString ((buildWorklist env start_url max_pages crawl).filter
            (fun u => ((extract_data env u selectors).2).isSome)).length ++
          " pages had errors") := by
  have hW : (errorLog env selectors
        (sched (buildWorklist env start_url max_pages crawl))).length =
      ((buildWorklist env start_url max_pages crawl).filter
        (fun u => ((extract_data env u selectors).2).isSome)).length := by
    rw [errorLog_length]
    exact (hp.filter _).length_eq
  constructor
  · intro h0
    have hnil : errorLog env selectors
        (sched (buildWorklist env start_url max_pages crawl)) = [] :=
      List.length_eq_zero.mp (hW.trans h0)
    simp [scrape_website, hv, hnil]
  · intro hne
    have hempty : (errorLog env selectors
        (sched (buildWorklist env start_url max_pages crawl))).isEmpty =
          false := by
      cases hx : errorLog env selectors
          (sched (buildWorklist env start_url max_pages crawl)) with
      | nil =>
        rw [hx] at hW
        exact absurd hW.symm hne
      | cons a l => rfl
    simp [scrape_website, hv, hempty, hW]

theorem scrape_summary_witness :
    is_valid_url envErr ("http://example.com") = true ∧
    (scrape_website envErr id ("http://example.com") sampleSelectors 2
        true).2 =
      "Successfully scraped 1 pages\nWarnings: 1 pages had errors" := by
  have h := scrape_summary envErr id ("http://example.com") sampleSelectors
    2 true rfl (List.Perm.refl _)
  refine ⟨rfl, ?_⟩
  have h2 := h.2 (by decide)
  rw [h2]
  rfl

end IVFClinicSweep
